import Mathlib

/-!
# Verification development for the `parsers` package model and pip adapters

Shallow embedding of `meta/package.go`, `pip/handler.go` and
`pip/poetry/handler.go`.

Conventions of the embedding:

* a Go `string` holding well-formed UTF-8 text is a Lean `String`, its runes
  are the `Char`s; a Go `[]byte` is a `List UInt8`;
* a method with a pointer receiver that assigns to the receiver returns the
  updated receiver next to its result (explicit state passing);
* a nil-able Go value (`func`, pointer, `error`) is an `Option`;
* standard-library functions are modelled under a namespace carrying the
  library's name (`strings`, `hex`, `sha1`, `sha256`, `sha512`); the Unicode
  case tables (`unicode.ToUpper`, `unicode.ToLower`) are taken as parameters.
-/

namespace Parsers

/-! ## Go standard library: `strings` -/

namespace strings

/-- Go's fast-path test: every code point is below `utf8.RuneSelf`. -/
def isASCII (s : String) : Bool :=
  s.toList.all (fun c => decide (c.toNat < 128))

/-- Byte-level upper-casing of the ASCII fast path: `c -= 'a' - 'A'` on `a..z`. -/
def upperByte (c : Char) : Char :=
  if 97 ≤ c.toNat ∧ c.toNat ≤ 122 then Char.ofNat (c.toNat - 32) else c

/-- Byte-level lower-casing of the ASCII fast path: `c += 'a' - 'A'` on `A..Z`. -/
def lowerByte (c : Char) : Char :=
  if 65 ≤ c.toNat ∧ c.toNat ≤ 90 then Char.ofNat (c.toNat + 32) else c

/-- Go `strings.ToUpper`: ASCII strings are mapped bytewise, any other string is
mapped rune by rune through `unicode.ToUpper` (the parameter `upperRune`). -/
def ToUpper (upperRune : Char → Char) (s : String) : String :=
  if isASCII s then String.mk (s.toList.map upperByte)
  else String.mk (s.toList.map upperRune)

/-- Go `strings.ToLower`: ASCII strings are mapped bytewise, any other string is
mapped rune by rune through `unicode.ToLower` (the parameter `lowerRune`). -/
def ToLower (lowerRune : Char → Char) (s : String) : String :=
  if isASCII s then String.mk (s.toList.map lowerByte)
  else String.mk (s.toList.map lowerRune)

/-- The scan of `strings.ReplaceAll` for a non-empty `old`: `skip` counts the
characters of a match that are still to be passed over. -/
def replaceScan (old new : List Char) : Nat → List Char → List Char
  | _, [] => []
  | skip + 1, _ :: cs => replaceScan old new skip cs
  | 0, c :: cs =>
    if old.isPrefixOf (c :: cs) then new ++ replaceScan old new (old.length - 1) cs
    else c :: replaceScan old new 0 cs

/-- Go `strings.ReplaceAll`: every non-overlapping instance of `old`, from the
left, is replaced by `new`; an empty `old` matches before every rune and at
the end. -/
def ReplaceAll (s old new : String) : String :=
  if old.toList = [] then String.mk (s.toList.flatMap (fun c => new.toList ++ [c]) ++ new.toList)
  else String.mk (replaceScan old.toList new.toList 0 s.toList)

end strings

/-! ## Go standard library: `encoding/hex` -/

namespace hex

/-- Go: `const hextable = "0123456789abcdef"`. -/
def hextable : List Char :=
  ['0', '1', '2', '3', '4', '5', '6', '7', '8', '9', 'a', 'b', 'c', 'd', 'e', 'f']

/-- The two characters `hextable[v>>4]`, `hextable[v&0x0f]` emitted for a byte. -/
def encodeByte (v : UInt8) : List Char :=
  [hextable.getD (v.toNat >>> 4) '0', hextable.getD (v.toNat &&& 0x0f) '0']

/-- Go `hex.EncodeToString`. -/
def EncodeToString (src : List UInt8) : String :=
  String.mk (src.flatMap encodeByte)

end hex

/-! ## Go standard library: digests (FIPS 180-4) -/

/-- Big-endian value of a byte sequence. -/
def beValue (bs : List UInt8) : Nat :=
  bs.foldl (fun acc b => acc * 256 + b.toNat) 0

/-- The `n` low-order bytes of `x`, most significant first. -/
def beBytes : Nat → Nat → List UInt8
  | 0, _ => []
  | n + 1, x => beBytes n (x / 256) ++ [UInt8.ofNat (x % 256)]

/-- The `i`-th block of `size` bytes of a message. -/
def blockAt (size : Nat) (msg : List UInt8) (i : Nat) : List UInt8 :=
  (msg.drop (size * i)).take size

namespace sha256

def mask : Nat := 2 ^ 32

/-- Go `bits.RotateLeft32(x, -n)`. -/
def rotr (x n : Nat) : Nat := ((x >>> n) ||| (x <<< (32 - n))) % mask

def K : List Nat :=
  [0x428a2f98, 0x71374491, 0xb5c0fbcf, 0xe9b5dba5, 0x3956c25b, 0x59f111f1,
   0x923f82a4, 0xab1c5ed5, 0xd807aa98, 0x12835b01, 0x243185be, 0x550c7dc3,
   0x72be5d74, 0x80deb1fe, 0x9bdc06a7, 0xc19bf174, 0xe49b69c1, 0xefbe4786,
   0x0fc19dc6, 0x240ca1cc, 0x2de92c6f, 0x4a7484aa, 0x5cb0a9dc, 0x76f988da,
   0x983e5152, 0xa831c66d, 0xb00327c8, 0xbf597fc7, 0xc6e00bf3, 0xd5a79147,
   0x06ca6351, 0x14292967, 0x27b70a85, 0x2e1b2138, 0x4d2c6dfc, 0x53380d13,
   0x650a7354, 0x766a0abb, 0x81c2c92e, 0x92722c85, 0xa2bfe8a1, 0xa81a664b,
   0xc24b8b70, 0xc76c51a3, 0xd192e819, 0xd6990624, 0xf40e3585, 0x106aa070,
   0x19a4c116, 0x1e376c08, 0x2748774c, 0x34b0bcb5, 0x391c0cb3, 0x4ed8aa4a,
   0x5b9cca4f, 0x682e6ff3, 0x748f82ee, 0x78a5636f, 0x84c87814, 0x8cc70208,
   0x90befffa, 0xa4506ceb, 0xbef9a3f7, 0xc67178f2]

/-- Chaining value `h[0..7]` and working variables `a..h`. -/
structure State where
  a : Nat
  b : Nat
  c : Nat
  d : Nat
  e : Nat
  f : Nat
  g : Nat
  h : Nat

def init : State :=
  ⟨0x6a09e667, 0xbb67ae85, 0x3c6ef372, 0xa54ff53a,
   0x510e527f, 0x9b05688c, 0x1f83d9ab, 0x5be0cd19⟩

/-- Message padding: `0x80`, zero bytes up to 56 modulo 64, then the bit
length as a big-endian `uint64`. -/
def pad (msg : List UInt8) : List UInt8 :=
  let len := msg.length
  let zeros := if len % 64 < 56 then 55 - len % 64 else 64 + 55 - len % 64
  msg ++ [0x80] ++ List.replicate zeros 0 ++ beBytes 8 ((len * 8) % 2 ^ 64)

/-- One step of the message schedule: `w[i]` from `w[0..i-1]`. -/
def extend (w : List Nat) (i : Nat) : List Nat :=
  let v1 := w.getD (i - 2) 0
  let t1 := (rotr v1 17) ^^^ (rotr v1 19) ^^^ (v1 >>> 10)
  let v2 := w.getD (i - 15) 0
  let t2 := (rotr v2 7) ^^^ (rotr v2 18) ^^^ (v2 >>> 3)
  w ++ [(t1 + w.getD (i - 7) 0 + t2 + w.getD (i - 16) 0) % mask]

/-- The 64 schedule words of a block. -/
def schedule (p : List UInt8) : List Nat :=
  (List.range' 16 48).foldl extend ((List.range 16).map (fun i => beValue (blockAt 4 p i)))

/-- One round of the compression function. -/
def round (s : State) (kw : Nat × Nat) : State :=
  let t1 := s.h + ((rotr s.e 6) ^^^ (rotr s.e 11) ^^^ (rotr s.e 25)) +
    ((s.e &&& s.f) ^^^ ((s.e ^^^ (mask - 1)) &&& s.g)) + kw.1 + kw.2
  let t2 := ((rotr s.a 2) ^^^ (rotr s.a 13) ^^^ (rotr s.a 22)) +
    ((s.a &&& s.b) ^^^ (s.a &&& s.c) ^^^ (s.b &&& s.c))
  ⟨(t1 + t2) % mask, s.a, s.b, s.c, (s.d + t1) % mask, s.e, s.f, s.g⟩

/-- Compression of one 64-byte block into the chaining value. -/
def block (hs : State) (p : List UInt8) : State :=
  let r := (K.zip (schedule p)).foldl round hs
  ⟨(hs.a + r.a) % mask, (hs.b + r.b) % mask, (hs.c + r.c) % mask, (hs.d + r.d) % mask,
   (hs.e + r.e) % mask, (hs.f + r.f) % mask, (hs.g + r.g) % mask, (hs.h + r.h) % mask⟩

/-- The digest of a message: `h := sha256.New(); h.Write(msg); h.Sum(nil)`. -/
def Sum (msg : List UInt8) : List UInt8 :=
  let p := pad msg
  let r := (List.range (p.length / 64)).foldl (fun hs i => block hs (blockAt 64 p i)) init
  beBytes 4 r.a ++ beBytes 4 r.b ++ beBytes 4 r.c ++ beBytes 4 r.d ++
  beBytes 4 r.e ++ beBytes 4 r.f ++ beBytes 4 r.g ++ beBytes 4 r.h

end sha256

namespace sha512

def mask : Nat := 2 ^ 64

/-- Go `bits.RotateLeft64(x, -n)`. -/
def rotr (x n : Nat) : Nat := ((x >>> n) ||| (x <<< (64 - n))) % mask

def K : List Nat :=
  [0x428a2f98d728ae22, 0x7137449123ef65cd, 0xb5c0fbcfec4d3b2f, 0xe9b5dba58189dbbc,
   0x3956c25bf348b538, 0x59f111f1b605d019, 0x923f82a4af194f9b, 0xab1c5ed5da6d8118,
   0xd807aa98a3030242, 0x12835b0145706fbe, 0x243185be4ee4b28c, 0x550c7dc3d5ffb4e2,
   0x72be5d74f27b896f, 0x80deb1fe3b1696b1, 0x9bdc06a725c71235, 0xc19bf174cf692694,
   0xe49b69c19ef14ad2, 0xefbe4786384f25e3, 0x0fc19dc68b8cd5b5, 0x240ca1cc77ac9c65,
   0x2de92c6f592b0275, 0x4a7484aa6ea6e483, 0x5cb0a9dcbd41fbd4, 0x76f988da831153b5,
   0x983e5152ee66dfab, 0xa831c66d2db43210, 0xb00327c898fb213f, 0xbf597fc7beef0ee4,
   0xc6e00bf33da88fc2, 0xd5a79147930aa725, 0x06ca6351e003826f, 0x142929670a0e6e70,
   0x27b70a8546d22ffc, 0x2e1b21385c26c926, 0x4d2c6dfc5ac42aed, 0x53380d139d95b3df,
   0x650a73548baf63de, 0x766a0abb3c77b2a8, 0x81c2c92e47edaee6, 0x92722c851482353b,
   0xa2bfe8a14cf10364, 0xa81a664bbc423001, 0xc24b8b70d0f89791, 0xc76c51a30654be30,
   0xd192e819d6ef5218, 0xd69906245565a910, 0xf40e35855771202a, 0x106aa07032bbd1b8,
   0x19a4c116b8d2d0c8, 0x1e376c085141ab53, 0x2748774cdf8eeb99, 0x34b0bcb5e19b48a8,
   0x391c0cb3c5c95a63, 0x4ed8aa4ae3418acb, 0x5b9cca4f7763e373, 0x682e6ff3d6b2b8a3,
   0x748f82ee5defb2fc, 0x78a5636f43172f60, 0x84c87814a1f0ab72, 0x8cc702081a6439ec,
   0x90befffa23631e28, 0xa4506cebde82bde9, 0xbef9a3f7b2c67915, 0xc67178f2e372532b,
   0xca273eceea26619c, 0xd186b8c721c0c207, 0xeada7dd6cde0eb1e, 0xf57d4f7fee6ed178,
   0x06f067aa72176fba, 0x0a637dc5a2c898a6, 0x113f9804bef90dae, 0x1b710b35131c471b,
   0x28db77f523047d84, 0x32caab7b40c72493, 0x3c9ebe0a15c9bebc, 0x431d67c49c100d4c,
   0x4cc5d4becb3e42b6, 0x597f299cfc657e2a, 0x5fcb6fab3ad6faec, 0x6c44198c4a475817]

/-- Chaining value `h[0..7]` and working variables `a..h`. -/
structure State where
  a : Nat
  b : Nat
  c : Nat
  d : Nat
  e : Nat
  f : Nat
  g : Nat
  h : Nat

def init : State :=
  ⟨0x6a09e667f3bcc908, 0xbb67ae8584caa73b, 0x3c6ef372fe94f82b, 0xa54ff53a5f1d36f1,
   0x510e527fade682d1, 0x9b05688c2b3e6c1f, 0x1f83d9abfb41bd6b, 0x5be0cd19137e2179⟩

/-- Message padding: `0x80`, zero bytes up to 112 modulo 128, then the bit
length as a big-endian 128-bit integer. -/
def pad (msg : List UInt8) : List UInt8 :=
  let len := msg.length
  let zeros := if len % 128 < 112 then 111 - len % 128 else 128 + 111 - len % 128
  msg ++ [0x80] ++ List.replicate zeros 0 ++ beBytes 16 ((len * 8) % 2 ^ 128)

/-- One step of the message schedule: `w[i]` from `w[0..i-1]`. -/
def extend (w : List Nat) (i : Nat) : List Nat :=
  let v1 := w.getD (i - 2) 0
  let t1 := (rotr v1 19) ^^^ (rotr v1 61) ^^^ (v1 >>> 6)
  let v2 := w.getD (i - 15) 0
  let t2 := (rotr v2 1) ^^^ (rotr v2 8) ^^^ (v2 >>> 7)
  w ++ [(t1 + w.getD (i - 7) 0 + t2 + w.getD (i - 16) 0) % mask]

/-- The 80 schedule words of a block. -/
def schedule (p : List UInt8) : List Nat :=
  (List.range' 16 64).foldl extend ((List.range 16).map (fun i => beValue (blockAt 8 p i)))

/-- One round of the compression function. -/
def round (s : State) (kw : Nat × Nat) : State :=
  let t1 := s.h + ((rotr s.e 14) ^^^ (rotr s.e 18) ^^^ (rotr s.e 41)) +
    ((s.e &&& s.f) ^^^ ((s.e ^^^ (mask - 1)) &&& s.g)) + kw.1 + kw.2
  let t2 := ((rotr s.a 28) ^^^ (rotr s.a 34) ^^^ (rotr s.a 39)) +
    ((s.a &&& s.b) ^^^ (s.a &&& s.c) ^^^ (s.b &&& s.c))
  ⟨(t1 + t2) % mask, s.a, s.b, s.c, (s.d + t1) % mask, s.e, s.f, s.g⟩

/-- Compression of one 128-byte block into the chaining value. -/
def block (hs : State) (p : List UInt8) : State :=
  let r := (K.zip (schedule p)).foldl round hs
  ⟨(hs.a + r.a) % mask, (hs.b + r.b) % mask, (hs.c + r.c) % mask, (hs.d + r.d) % mask,
   (hs.e + r.e) % mask, (hs.f + r.f) % mask, (hs.g + r.g) % mask, (hs.h + r.h) % mask⟩

/-- The digest of a message: `h := sha512.New(); h.Write(msg); h.Sum(nil)`. -/
def Sum (msg : List UInt8) : List UInt8 :=
  let p := pad msg
  let r := (List.range (p.length / 128)).foldl (fun hs i => block hs (blockAt 128 p i)) init
  beBytes 8 r.a ++ beBytes 8 r.b ++ beBytes 8 r.c ++ beBytes 8 r.d ++
  beBytes 8 r.e ++ beBytes 8 r.f ++ beBytes 8 r.g ++ beBytes 8 r.h

end sha512

namespace sha1

def mask : Nat := 2 ^ 32

/-- Go `bits.RotateLeft32(x, n)`. -/
def rotl (x n : Nat) : Nat := ((x <<< n) ||| (x >>> (32 - n))) % mask

/-- Chaining value `h[0..4]` and working variables `a..e`. -/
structure State where
  a : Nat
  b : Nat
  c : Nat
  d : Nat
  e : Nat

def init : State := ⟨0x67452301, 0xEFCDAB89, 0x98BADCFE, 0x10325476, 0xC3D2E1F0⟩

/-- Message padding: `0x80`, zero bytes up to 56 modulo 64, then the bit
length as a big-endian `uint64`. -/
def pad (msg : List UInt8) : List UInt8 :=
  let len := msg.length
  let zeros := if len % 64 < 56 then 55 - len % 64 else 64 + 55 - len % 64
  msg ++ [0x80] ++ List.replicate zeros 0 ++ beBytes 8 ((len * 8) % 2 ^ 64)

/-- One step of the message schedule: `w[i]` from `w[0..i-1]`. -/
def extend (w : List Nat) (i : Nat) : List Nat :=
  let tmp := w.getD (i - 3) 0 ^^^ w.getD (i - 8) 0 ^^^ w.getD (i - 14) 0 ^^^ w.getD (i - 16) 0
  w ++ [rotl tmp 1]

/-- The 80 schedule words of a block. -/
def schedule (p : List UInt8) : List Nat :=
  (List.range' 16 64).foldl extend ((List.range 16).map (fun i => beValue (blockAt 4 p i)))

/-- Round function and constant of round `i`. -/
def fk (i : Nat) (b c d : Nat) : Nat × Nat :=
  if i < 20 then ((b &&& c) ||| ((b ^^^ (mask - 1)) &&& d), 0x5A827999)
  else if i < 40 then (b ^^^ c ^^^ d, 0x6ED9EBA1)
  else if i < 60 then (((b ||| c) &&& d) ||| (b &&& c), 0x8F1BBCDC)
  else (b ^^^ c ^^^ d, 0xCA62C1D6)

/-- One round of the compression function. -/
def round (s : State) (iw : Nat × Nat) : State :=
  let fkv := fk iw.1 s.b s.c s.d
  let t := (rotl s.a 5 + fkv.1 + s.e + iw.2 + fkv.2) % mask
  ⟨t, s.a, rotl s.b 30, s.c, s.d⟩

/-- Compression of one 64-byte block into the chaining value. -/
def block (hs : State) (p : List UInt8) : State :=
  let r := ((List.range 80).zip (schedule p)).foldl round hs
  ⟨(hs.a + r.a) % mask, (hs.b + r.b) % mask, (hs.c + r.c) % mask, (hs.d + r.d) % mask,
   (hs.e + r.e) % mask⟩

/-- The digest of a message: `h := sha1.New(); h.Write(msg); h.Sum(nil)`. -/
def Sum (msg : List UInt8) : List UInt8 :=
  let p := pad msg
  let r := (List.range (p.length / 64)).foldl (fun hs i => block hs (blockAt 64 p i)) init
  beBytes 4 r.a ++ beBytes 4 r.b ++ beBytes 4 r.c ++ beBytes 4 r.d ++ beBytes 4 r.e

end sha1

/-! ## `meta/package.go`: hash algorithm enumeration -/

/-- Go: `type HashAlgorithm string`. -/
abbrev HashAlgorithm := String

def HashAlgoSHA1 : HashAlgorithm := "SHA1"
def HashAlgoSHA224 : HashAlgorithm := "SHA224"
def HashAlgoSHA256 : HashAlgorithm := "SHA256"
def HashAlgoSHA384 : HashAlgorithm := "SHA384"
def HashAlgoSHA512 : HashAlgorithm := "SHA512"
def HashAlgoMD2 : HashAlgorithm := "MD2"
def HashAlgoMD4 : HashAlgorithm := "MD4"
def HashAlgoMD5 : HashAlgorithm := "MD5"
def HashAlgoMD6 : HashAlgorithm := "MD6"
def HashAlgoUnsupported : HashAlgorithm := "unsupported"

/-- The ten members of the enumeration, in declaration order. -/
def hashAlgorithms : List HashAlgorithm :=
  [HashAlgoSHA1, HashAlgoSHA224, HashAlgoSHA256, HashAlgoSHA384, HashAlgoSHA512,
   HashAlgoMD2, HashAlgoMD4, HashAlgoMD5, HashAlgoMD6, HashAlgoUnsupported]

/-- The nine algorithm names of the enumeration (all members but "unsupported"). -/
def hashAlgorithmNames : List String :=
  ["SHA1", "SHA224", "SHA256", "SHA384", "SHA512", "MD2", "MD4", "MD5", "MD6"]

/-- Go `GetHashAlgorithm`: a `switch` on `strings.ToUpper(h)`; the cases are tried
in source order. -/
def GetHashAlgorithm (upperRune : Char → Char) (h : String) : HashAlgorithm :=
  let u := strings.ToUpper upperRune h
  if u = "SHA1" then HashAlgoSHA1
  else if u = "SHA224" then HashAlgoSHA224
  else if u = "SHA256" then HashAlgoSHA256
  else if u = "SHA384" then HashAlgoSHA384
  else if u = "SHA512" then HashAlgoSHA512
  else if u = "MD2" then HashAlgoMD2
  else if u = "MD4" then HashAlgoMD2
  else if u = "MD5" then HashAlgoMD5
  else if u = "MD6" then HashAlgoMD6
  else HashAlgoUnsupported

/-! ## `meta/package.go`: supplier -/

/-- Go: `type SupplierType string`. -/
abbrev SupplierType := String

def Person : SupplierType := "Person"
def Organization : SupplierType := "Organization"

/-- Go: `type Supplier struct`. The field `Type` is spelled `Type_`;
`FuncGetSupplier` is `none` for a nil function value. -/
structure Supplier where
  Type_ : SupplierType
  Name : String
  Email : String
  FuncGetSupplier : Option (Unit → String)

/-- Go `(*Supplier).emailIsEmpty`. -/
def Supplier.emailIsEmpty (lowerRune : Char → Char) (s : Supplier) : Bool :=
  let email := strings.ToLower lowerRune s.Email
  decide (s.Email.utf8ByteSize = 0) || decide (email = "none") || decide (email = "unknown")

/-- Go `(*Supplier).Get`: the rendering together with the receiver after the call
(the method assigns the default type to `s.Type`). -/
def Supplier.Get (lowerRune : Char → Char) (s : Supplier) : String × Supplier :=
  match s.FuncGetSupplier with
  | some f => (f (), s)
  | none =>
    if s.Name = "" then ("", s)
    else
      let s1 : Supplier := if s.Type_ = "" then { s with Type_ := Organization } else s
      let pkgSupplier := s1.Type_ ++ ": " ++ s1.Name
      let pkgSupplier :=
        if !(s1.emailIsEmpty lowerRune) then pkgSupplier ++ (" (" ++ s1.Email ++ ")")
        else pkgSupplier
      (pkgSupplier, s1)

/-- Reference rendering of a supplier, following the specification's wording:
the custom function's result when one is set; otherwise empty for an empty
name; otherwise `T: Name` with `T` the type or "Organization" when the type is
unset, followed by ` (Email)` exactly when the e-mail is non-empty and its
lower-casing is neither "none" nor "unknown". -/
def Supplier.referenceRendering (lowerRune : Char → Char) (s : Supplier) : String :=
  match s.FuncGetSupplier with
  | some f => f ()
  | none =>
    if s.Name = "" then ""
    else
      let T := if s.Type_ = "" then "Organization" else s.Type_
      let emailShown : Bool :=
        decide (s.Email ≠ "") &&
        decide (strings.ToLower lowerRune s.Email ≠ "none") &&
        decide (strings.ToLower lowerRune s.Email ≠ "unknown")
      if emailShown then T ++ ": " ++ s.Name ++ " (" ++ s.Email ++ ")"
      else T ++ ": " ++ s.Name

/-! ## `meta/package.go`: checksum -/

/-- Go: `type Checksum struct`. -/
structure Checksum where
  Algorithm : HashAlgorithm
  Content : List UInt8
  Value : String

/-- Go `(*Checksum).Compute`: the `switch` selects the hash, the content is
written to it and the sum is hex-encoded. -/
def Checksum.Compute (c : Checksum) (content : List UInt8) : String :=
  let h : List UInt8 → List UInt8 :=
    if c.Algorithm = HashAlgoSHA256 then sha256.Sum
    else if c.Algorithm = HashAlgoSHA512 then sha512.Sum
    else sha1.Sum
  hex.EncodeToString (h content)

/-- Go `(*Checksum).String`: the returned string together with the receiver after
the call (the method assigns `c.Value` when it is empty). -/
def Checksum.String (c : Checksum) : String × Checksum :=
  let c1 : Checksum := if c.Value = "" then { c with Value := c.Compute c.Content } else c
  (c1.Value, c1)

/-! ## `meta/package.go`: package -/

/-- Go: `type Package struct`. `License` stands for `license.License`, a type
declared outside the files at hand; the map `Packages` from a key to a package
is kept as an association list. -/
structure Package (License : Type) where
  Version : String
  Name : String
  Path : String
  LocalPath : String
  Supplier : Supplier
  PackageURL : String
  Checksum : Checksum
  PackageHomePage : String
  PackageDownloadLocation : String
  LicenseConcluded : String
  LicenseDeclared : String
  CommentsLicense : String
  OtherLicense : List License
  Copyright : String
  PackageComment : String
  Root : Bool
  Packages : List (String × Package License)

/-- The zero value `meta.Package{}`. -/
def Package.zero {License : Type} : Package License :=
  { Version := "", Name := "", Path := "", LocalPath := "",
    Supplier := ⟨"", "", "", none⟩, PackageURL := "",
    Checksum := ⟨"", [], ""⟩, PackageHomePage := "", PackageDownloadLocation := "",
    LicenseConcluded := "", LicenseDeclared := "", CommentsLicense := "",
    OtherLicense := [], Copyright := "", PackageComment := "", Root := false,
    Packages := [] }

/-! ## Collaborators of the adapters -/

/-- Go `error` values seen by the poetry adapter: its five package-level
error variables, and `external msg` for an error created by another package
(`helper`, `worker`), which can never be one of the five unexported
variables. -/
inductive Error where
  | errDependenciesNotFound
  | errBuildlingModuleDependencies
  | errNoPipCommand
  | errVersionNotFound
  | errFailedToConvertModules
  | external (msg : String)
deriving DecidableEq, Repr

/-- Go `plugin.Metadata`, with the fields the adapters initialise. -/
structure Metadata where
  Name : String
  Slug : String
  Manifest : List String
  ModulePath : List String
deriving DecidableEq, Repr

/-- Go `helper.Cmd` as built by `helper.NewCmd(helper.CmdOptions{Name, Args, Directory})`. -/
structure Cmd where
  Name : String
  Args : List String
  Directory : String
deriving DecidableEq, Repr

/-- Go `worker.Packages`: this file assigns only the field `Root`; the other
fields of the record are kept as `Data`. -/
structure WorkerPackages (Data : Type) where
  Root : Bool
  Data : Data

/-- The file system and command runner behind `helper` and `filepath`, and the
`command` constants of the poetry package with their `Parse` method.
`Build` and `Output` give the message of the error they return, if any. -/
structure Tool where
  Exists : String → Bool
  Join : String → String → String
  Parse : String → List String
  VersionCmd : String
  ModulesCmd : String
  MetadataCmd : String
  InstallRootModuleCmd : String
  Build : Cmd → Option String
  Output : Cmd → String × Option String

/-- The functions of the `worker` package called by the poetry adapter.
`ConvertMetadataToModules` receives the callback given to
`worker.NewMetadataDecoder`, the loaded packages and the current module list;
it returns the metadata map, the error message if any, and the module list it
leaves behind the pointer. It may run the callback any number of times, in
whatever computation `m` the callback lives. -/
structure Worker (Data MetaInfo License : Type) where
  GetShortPythonVersion : String → String
  IsRequirementMeet : String → Bool
  LoadModules : String → String → List (WorkerPackages Data)
  IsRootModule : WorkerPackages Data → String → Bool
  ConvertMetadataToModules : {m : Type → Type} → [Monad m] →
    (String → m (String × Option String)) → List (WorkerPackages Data) →
    List (Package License) → m ((MetaInfo × Option String) × List (Package License))

/-! ## `pip/poetry/handler.go` -/

def cmdName : String := "poetry"
def manifestFile : String := "pyproject.toml"
def manifestLockFile : String := "poetry.lock"
def placeholderPkgName : String := "\x7bPACKAGE\x7d"

/-- Go: `type poetry struct`. `metainfo` is `none` for the nil map. -/
structure poetry (Data MetaInfo License : Type) where
  metadata : Metadata
  rootModule : Option (Package License)
  command : Option Cmd
  basepath : String
  version : String
  pkgs : List (WorkerPackages Data)
  metainfo : Option MetaInfo
  allModules : List (Package License)

section Poetry

variable {Data MetaInfo License : Type}

/-- Go `poetry.New`. -/
def poetry.New : poetry Data MetaInfo License :=
  { metadata :=
      { Name := "The Python Package Index (PyPI)", Slug := "poetry",
        Manifest := [manifestLockFile], ModulePath := [] },
    rootModule := none, command := none, basepath := "", version := "",
    pkgs := [], metainfo := none, allModules := [] }

/-- The loop of `(*poetry).IsValid` over `m.metadata.Manifest`. -/
def poetry.IsValid.loop (t : Tool) (path : String) : List String → Bool
  | [] => false
  | f :: rest => if t.Exists (t.Join path f) then true else poetry.IsValid.loop t path rest

/-- Go `(*poetry).IsValid`. -/
def poetry.IsValid (t : Tool) (m : poetry Data MetaInfo License) (path : String) : Bool :=
  poetry.IsValid.loop t path m.metadata.Manifest

/-- Go `(*poetry).SetRootModule`. -/
def poetry.SetRootModule (m : poetry Data MetaInfo License) (path : String) :
    Option Error × poetry Data MetaInfo License :=
  (none, { m with basepath := path })

/-- The loop of `(*poetry).fetchRootModule` over `m.allModules`, ending in
`meta.Package{}`. -/
def poetry.fetchRootModule.loop : List (Package License) → Package License
  | [] => Package.zero
  | mod :: rest => if mod.Root then mod else poetry.fetchRootModule.loop rest

/-- Go `(*poetry).fetchRootModule`. -/
def poetry.fetchRootModule (m : poetry Data MetaInfo License) : Package License :=
  poetry.fetchRootModule.loop m.allModules

/-- Go `(*poetry).GetRootModule`: the package behind the returned pointer, the
returned error, and the receiver after the call. -/
def poetry.GetRootModule (m : poetry Data MetaInfo License) (_path : String) :
    (Package License × Option Error) × poetry Data MetaInfo License :=
  match m.rootModule with
  | none =>
    let module := m.fetchRootModule
    ((module, none), { m with rootModule := some module })
  | some root => ((root, none), m)

/-- Go `(*poetry).buildCmd`. The result is `none` when `cmdArgs[0]` indexes an
empty slice (a run-time panic). -/
def poetry.buildCmd (t : Tool) (m : poetry Data MetaInfo License) (cmd : String)
    (path : String) : Option (Option Error × poetry Data MetaInfo License) :=
  match t.Parse cmd with
  | [] => none
  | name :: args =>
    if name ≠ cmdName then some (some Error.errNoPipCommand, m)
    else
      let command : Cmd := { Name := name, Args := args, Directory := path }
      some ((t.Build command).map Error.external, { m with command := some command })

/-- Go `m.command.Output()`: `none` when `m.command` is nil. -/
def poetry.commandOutput (t : Tool) (m : poetry Data MetaInfo License) :
    Option (String × Option String) :=
  m.command.map t.Output

/-- Go `(*poetry).GetVersion`: `none` stands for a run-time panic. -/
def poetry.GetVersion (t : Tool) (w : Worker Data MetaInfo License)
    (m : poetry Data MetaInfo License) :
    Option ((String × Option Error) × poetry Data MetaInfo License) :=
  match m.buildCmd t t.VersionCmd m.basepath with
  | none => none
  | some (some err, m1) => some (("", some err), m1)
  | some (none, m1) =>
    match m1.commandOutput t with
    | none => none
    | some (version, err) =>
      let m2 := { m1 with version := w.GetShortPythonVersion version }
      match err with
      | some _ => some (("Python", some Error.errVersionNotFound), m2)
      | none => some ((version, none), m2)

/-- Go `(*poetry).GetPackageDetails`: the result of `buildCmd` is discarded;
`none` stands for a run-time panic. -/
def poetry.GetPackageDetails (t : Tool) (m : poetry Data MetaInfo License)
    (packageName : String) :
    Option ((String × Option String) × poetry Data MetaInfo License) :=
  let metatdataCmd := strings.ReplaceAll t.MetadataCmd placeholderPkgName packageName
  match m.buildCmd t metatdataCmd m.basepath with
  | none => none
  | some (_, m1) =>
    match m1.commandOutput t with
    | none => none
    | some (result, err) =>
      match err with
      | some e => some (("", some e), m1)
      | none => some ((result, none), m1)

/-- Go `(*poetry).PushRootModuleToVenv`: `none` stands for a run-time panic. -/
def poetry.PushRootModuleToVenv (t : Tool) (m : poetry Data MetaInfo License) :
    Option ((Bool × Option Error) × poetry Data MetaInfo License) :=
  match m.buildCmd t t.InstallRootModuleCmd m.basepath with
  | none => none
  | some (some err, m1) => some ((false, some err), m1)
  | some (none, m1) =>
    match m1.commandOutput t with
    | none => none
    | some (result, err) =>
      if err.isNone && decide (result.utf8ByteSize > 0) then
        some ((true, err.map Error.external), m1)
      else some ((false, none), m1)

/-- The loop of `(*poetry).markRootModue` over `m.pkgs`: the first package that
`worker.IsRootModule` accepts gets `Root = true`, then the loop breaks. -/
def poetry.markRootModue.loop (w : Worker Data MetaInfo License) (slug : String) :
    List (WorkerPackages Data) → List (WorkerPackages Data)
  | [] => []
  | pkg :: rest =>
    if w.IsRootModule pkg slug then { pkg with Root := true } :: rest
    else pkg :: poetry.markRootModue.loop w slug rest

/-- Go `(*poetry).markRootModue`. -/
def poetry.markRootModue (w : Worker Data MetaInfo License)
    (m : poetry Data MetaInfo License) : poetry Data MetaInfo License :=
  { m with pkgs := poetry.markRootModue.loop w m.metadata.Slug m.pkgs }

/-- Go `(*poetry).LoadModuleList`: `none` stands for a run-time panic. -/
def poetry.LoadModuleList (t : Tool) (w : Worker Data MetaInfo License)
    (m : poetry Data MetaInfo License) (_path : String) :
    Option (Option Error × poetry Data MetaInfo License) :=
  match m.PushRootModuleToVenv t with
  | none => none
  | some ((state, err), m1) =>
    if err.isSome && !state then some (err, m1)
    else
      match m1.buildCmd t t.ModulesCmd m1.basepath with
      | none => none
      | some (_, m2) =>
        match m2.commandOutput t with
        | none => none
        | some (result, err) =>
          let m3 :=
            if err.isNone && decide (result.utf8ByteSize > 0) && w.IsRequirementMeet result then
              poetry.markRootModue w { m2 with pkgs := w.LoadModules result m2.version }
            else m2
          some (err.map Error.external, m3)

/-- Go `(*poetry).ListUsedModules`: the returned slice, the returned error and the
receiver after the call; `none` stands for a run-time panic. -/
def poetry.ListUsedModules (t : Tool) (w : Worker Data MetaInfo License)
    (m : poetry Data MetaInfo License) (path : String) :
    Option ((List (Package License) × Option Error) × poetry Data MetaInfo License) :=
  match m.LoadModuleList t w path with
  | none => none
  | some (some _, m1) => some ((m1.allModules, some Error.errFailedToConvertModules), m1)
  | some (none, m1) =>
    let decoder : StateT (poetry Data MetaInfo License) Option
        ((MetaInfo × Option String) × List (Package License)) :=
      w.ConvertMetadataToModules (fun packageName s => poetry.GetPackageDetails t s packageName)
        m1.pkgs m1.allModules
    match decoder m1 with
    | none => none
    | some (((metainfo, err), modules), m2) =>
      let m3 := { m2 with allModules := modules }
      match err with
      | some e => some ((m3.allModules, some (Error.external e)), m3)
      | none =>
        let m4 := { m3 with metainfo := some metainfo }
        some ((m4.allModules, none), m4)

end Poetry

/-! ## `pip/handler.go` -/

/-- A sub-adapter as `pip` uses it: the plugin value its `New()` returns and
the answer of `IsValid` on that fresh value. The pipenv and pyenv adapters
are declared outside the files at hand. -/
structure SubAdapter (Plugin : Type) where
  New : Plugin
  IsValid : String → Bool

/-- The poetry sub-adapter: `poetry.New()` and its `IsValid`. -/
def poetrySubAdapter {Data MetaInfo License Plugin : Type} (t : Tool)
    (asPlugin : poetry Data MetaInfo License → Plugin) : SubAdapter Plugin :=
  { New := asPlugin poetry.New
    IsValid := fun path => poetry.IsValid t (poetry.New : poetry Data MetaInfo License) path }

/-- Go: `type pip struct`; `plugin` is `none` for the nil interface value. -/
structure pip (Plugin : Type) where
  plugin : Option Plugin

/-- Go `pip.New`. -/
def pip.New {Plugin : Type} : pip Plugin := { plugin := none }

/-- Go `(*pip).IsValid`: the answer and the receiver after the call. -/
def pip.IsValid {Plugin : Type} (pipenvA poetryA pyenvA : SubAdapter Plugin)
    (m : pip Plugin) (path : String) : Bool × pip Plugin :=
  if pipenvA.IsValid path then (true, { m with plugin := some pipenvA.New })
  else if poetryA.IsValid path then (true, { m with plugin := some poetryA.New })
  else if pyenvA.IsValid path then (true, { m with plugin := some pyenvA.New })
  else (false, m)

/-! ## Concrete collaborators used to evaluate the adapters -/

/-- Splitting of a command line at blanks: `cur` is the field being read. -/
def splitFields : List Char → List Char → List String
  | cur, [] => if cur = [] then [] else [String.mk cur]
  | cur, c :: cs =>
    if c = ' ' then
      if cur = [] then splitFields [] cs else String.mk cur :: splitFields [] cs
    else splitFields (cur ++ [c]) cs

/-- A tool whose commands all start with `poetry`, build without error and
print `out`; a path exists when it is listed in `files`. -/
def Tool.printing (files : List String) (out : String) : Tool :=
  { Exists := fun f => files.contains f
    Join := fun dir f => dir ++ "/" ++ f
    Parse := fun c => splitFields [] c.toList
    VersionCmd := "poetry run python -V"
    ModulesCmd := "poetry run pip list -v --format json"
    MetadataCmd := "poetry run pip show \x7bPACKAGE\x7d"
    InstallRootModuleCmd := "poetry run pip install -e ."
    Build := fun _ => none
    Output := fun _ => (out, none) }

/-- The tool `Tool.printing`, except that building a command fails. -/
def Tool.unbuildable : Tool :=
  { Tool.printing [] "Python 3.9.1" with Build := fun _ => some "exec: not found" }

/-- The tool `Tool.printing`, except that running a command fails. -/
def Tool.failing : Tool :=
  { Tool.printing [] "" with Output := fun _ => ("", some "exit status 1") }

/-- A worker that reads one package, named by the tool's output, marks it as
root, and converts every loaded package to a module of the same name after
asking the callback for its details. -/
def Worker.single : Worker String (List String) Unit :=
  { GetShortPythonVersion := fun v => v
    IsRequirementMeet := fun _ => true
    LoadModules := fun result _ => [{ Root := false, Data := result }]
    IsRootModule := fun _ _ => true
    ConvertMetadataToModules := fun cb pkgs modules => do
      let details ← pkgs.mapM (fun p => cb p.Data)
      pure ((details.map Prod.fst, none),
        modules ++ pkgs.map (fun p => { Package.zero with Name := p.Data, Root := p.Root })) }

/-- The plugin values `pip` can adopt; of the pipenv and pyenv adapters only
the freshly constructed value is represented. -/
inductive PipPlugin (Data MetaInfo License : Type) where
  | pipenv
  | poetry (p : poetry Data MetaInfo License)
  | pyenv

/-- A pipenv sub-adapter that finds no manifest. -/
def SubAdapter.pipenvAbsent : SubAdapter (PipPlugin String (List String) Unit) :=
  { New := PipPlugin.pipenv, IsValid := fun _ => false }

/-- A pyenv sub-adapter that accepts every path. -/
def SubAdapter.pyenvPresent : SubAdapter (PipPlugin String (List String) Unit) :=
  { New := PipPlugin.pyenv, IsValid := fun _ => true }

/-- The poetry sub-adapter on a file system that holds `/p/poetry.lock`. -/
def SubAdapter.poetryLocked : SubAdapter (PipPlugin String (List String) Unit) :=
  poetrySubAdapter (Tool.printing ["/p/poetry.lock"] "") PipPlugin.poetry

/-- A module named `name` with the given `Root` flag. -/
def Package.named (name : String) (root : Bool) : Package Unit :=
  { Package.zero with Name := name, Root := root }

/-- An adapter with three loaded modules, the second and third marked root,
and no cached root. -/
def poetry.threeModules : poetry String (List String) Unit :=
  { poetry.New with
    allModules := [Package.named "a" false, Package.named "b" true, Package.named "c" true] }

/-! ## Lemmas on the library model -/

/-- On an ASCII string `strings.ToUpper` does not consult the Unicode table. -/
theorem strings.ToUpper_ascii (upperRune : Char → Char) (s : String)
    (h : strings.isASCII s = true) :
    strings.ToUpper upperRune s = String.mk (s.toList.map strings.upperByte) := by
  simp [strings.ToUpper, h]

/-- On an ASCII string `strings.ToLower` does not consult the Unicode table. -/
theorem strings.ToLower_ascii (lowerRune : Char → Char) (s : String)
    (h : strings.isASCII s = true) :
    strings.ToLower lowerRune s = String.mk (s.toList.map strings.lowerByte) := by
  simp [strings.ToLower, h]

/-- Go's `len(s) == 0` holds exactly for the empty string. -/
theorem utf8ByteSize_eq_zero_iff (s : String) : s.utf8ByteSize = 0 ↔ s = "" := by
  rcases s with ⟨l⟩
  cases l with
  | nil => exact ⟨fun _ => rfl, fun _ => rfl⟩
  | cons c cs =>
    constructor
    · intro h
      have hc := Char.utf8Size_pos c
      simp only [String.utf8ByteSize, String.utf8ByteSize.go] at h
      omega
    · intro h
      exact absurd (congrArg String.data h) (by simp)

/-- The list `beBytes n x` has `n` bytes. -/
theorem length_beBytes (n x : Nat) : (beBytes n x).length = n := by
  induction n generalizing x with
  | zero => rfl
  | succ k ih => simp [beBytes, ih]

/-- A SHA-1 sum has `sha1.Size = 20` bytes. -/
theorem length_sha1_Sum (msg : List UInt8) : (sha1.Sum msg).length = 20 := by
  simp [sha1.Sum, length_beBytes]

/-- A SHA-256 sum has `sha256.Size = 32` bytes. -/
theorem length_sha256_Sum (msg : List UInt8) : (sha256.Sum msg).length = 32 := by
  simp [sha256.Sum, length_beBytes]

/-- A SHA-512 sum has `sha512.Size = 64` bytes. -/
theorem length_sha512_Sum (msg : List UInt8) : (sha512.Sum msg).length = 64 := by
  simp [sha512.Sum, length_beBytes]

/-- Every entry of `hextable` below index 16 is one of its sixteen characters. -/
theorem hex.getD_mem_hextable (i : Nat) (h : i < 16) :
    hex.hextable.getD i '0' ∈ hex.hextable := by
  interval_cases i <;> decide

/-- Both characters emitted for a byte are lower-case hexadecimal digits. -/
theorem hex.mem_encodeByte (v : UInt8) (ch : Char) (h : ch ∈ hex.encodeByte v) :
    ch ∈ hex.hextable := by
  have hv : v.toNat < 256 := v.val.isLt
  simp only [hex.encodeByte, List.mem_cons, List.mem_singleton, List.not_mem_nil,
    or_false] at h
  rcases h with h | h
  · rw [h]
    apply hex.getD_mem_hextable
    rw [Nat.shiftRight_eq_div_pow]
    omega
  · rw [h]
    apply hex.getD_mem_hextable
    exact Nat.lt_of_le_of_lt Nat.and_le_right (by decide)

/-- The encoder `hex.EncodeToString` emits two characters per byte. -/
theorem hex.length_EncodeToString (src : List UInt8) :
    (hex.EncodeToString src).length = 2 * src.length := by
  unfold hex.EncodeToString
  rw [String.length_mk]
  induction src with
  | nil => rfl
  | cons b bs ih =>
    simp only [List.flatMap_cons, List.length_append, List.length_cons, ih]
    simp only [hex.encodeByte, List.length_cons, List.length_nil]
    omega

/-- The encoder `hex.EncodeToString` emits only lower-case hexadecimal digits. -/
theorem hex.mem_EncodeToString (src : List UInt8) (ch : Char)
    (h : ch ∈ (hex.EncodeToString src).toList) : ch ∈ hex.hextable := by
  unfold hex.EncodeToString at h
  simp only [String.toList, List.mem_flatMap] at h
  obtain ⟨v, _, hv⟩ := h
  exact hex.mem_encodeByte v ch hv

/-- The model of `strings.ReplaceAll` on the placeholder of the metadata
command, on overlapping matches and on an empty pattern. -/
theorem strings.ReplaceAll_examples :
    strings.ReplaceAll "poetry run pip show \x7bPACKAGE\x7d" placeholderPkgName "foo" =
      "poetry run pip show foo" ∧
    strings.ReplaceAll "aaa" "aa" "b" = "ba" ∧
    strings.ReplaceAll "abc" "" "-" = "-a-b-c-" := by
  decide

/-! ## Theorems: hash algorithm lookup -/

/-- Every name of the enumeration other than "MD4" is mapped to the member
carrying that name. -/
theorem GetHashAlgorithm_eq_name (upperRune : Char → Char) (h : String)
    (hu : strings.ToUpper upperRune h ∈ hashAlgorithmNames)
    (h4 : strings.ToUpper upperRune h ≠ "MD4") :
    GetHashAlgorithm upperRune h = strings.ToUpper upperRune h := by
  simp only [hashAlgorithmNames, List.mem_cons, List.mem_singleton, List.not_mem_nil,
    or_false] at hu
  unfold GetHashAlgorithm
  rcases hu with hu | hu | hu | hu | hu | hu | hu | hu | hu <;>
    first
      | exact absurd hu h4
      | (simp only [hu]; decide)

/-- C1 (evaluation at the failing input): on "MD4", and on "md4", whose
upper-casing is the enumeration name "MD4", `GetHashAlgorithm` returns
`HashAlgoMD2`, which is not the member `HashAlgoMD4` carrying that name. -/
theorem GetHashAlgorithm_MD4_returns_MD2 (upperRune : Char → Char) :
    strings.ToUpper upperRune "MD4" = "MD4" ∧
    strings.ToUpper upperRune "md4" = "MD4" ∧
    GetHashAlgorithm upperRune "MD4" = HashAlgoMD2 ∧
    GetHashAlgorithm upperRune "md4" = HashAlgoMD2 ∧
    HashAlgoMD2 ≠ HashAlgoMD4 ∧
    GetHashAlgorithm upperRune "MD4" ≠ strings.ToUpper upperRune "MD4" := by
  have h1 : strings.ToUpper upperRune "MD4" = "MD4" :=
    (strings.ToUpper_ascii upperRune "MD4" (by decide)).trans (by decide)
  have h2 : strings.ToUpper upperRune "md4" = "MD4" :=
    (strings.ToUpper_ascii upperRune "md4" (by decide)).trans (by decide)
  refine ⟨h1, h2, ?_, ?_, by decide, ?_⟩
  · unfold GetHashAlgorithm
    simp only [h1]
    decide
  · unfold GetHashAlgorithm
    simp only [h2]
    decide
  · unfold GetHashAlgorithm
    simp only [h1]
    decide

/-- C2: `GetHashAlgorithm` is total: for every string it returns one of the
ten members of the enumeration, and it returns `HashAlgoUnsupported` whenever
the upper-cased input is none of the nine algorithm names. -/
theorem GetHashAlgorithm_total (upperRune : Char → Char) (h : String) :
    GetHashAlgorithm upperRune h ∈ hashAlgorithms ∧
    (strings.ToUpper upperRune h ∉ hashAlgorithmNames →
      GetHashAlgorithm upperRune h = HashAlgoUnsupported) := by
  constructor
  · unfold GetHashAlgorithm
    simp only [hashAlgorithms]
    split_ifs <;> simp
  · intro hu
    simp only [hashAlgorithmNames, List.mem_cons, List.mem_singleton, List.not_mem_nil,
      or_false, not_or] at hu
    obtain ⟨h1, h2, h3, h4, h5, h6, h7, h8, h9⟩ := hu
    unfold GetHashAlgorithm
    simp only [h1, h2, h3, h4, h5, h6, h7, h8, h9, if_false]

/-- C2 at "rot13" and at the empty string: neither upper-cases to an
algorithm name, and both are mapped to `HashAlgoUnsupported`. -/
theorem GetHashAlgorithm_total_witness :
    GetHashAlgorithm Char.toUpper "rot13" = HashAlgoUnsupported ∧
    GetHashAlgorithm Char.toUpper "" = HashAlgoUnsupported :=
  ⟨(GetHashAlgorithm_total Char.toUpper "rot13").2
      (by rw [strings.ToUpper_ascii _ _ (by decide)]; decide),
   (GetHashAlgorithm_total Char.toUpper "").2
      (by rw [strings.ToUpper_ascii _ _ (by decide)]; decide)⟩


/-! ## Theorems: supplier -/

/-- The e-mail test of `Supplier.Get`, in the specification's words. -/
theorem Supplier.emailIsEmpty_eq (lowerRune : Char → Char) (s : Supplier) :
    s.emailIsEmpty lowerRune =
      !(decide (s.Email ≠ "") &&
        decide (strings.ToLower lowerRune s.Email ≠ "none") &&
        decide (strings.ToLower lowerRune s.Email ≠ "unknown")) := by
  unfold Supplier.emailIsEmpty
  by_cases h0 : s.Email = ""
  · simp [h0, (utf8ByteSize_eq_zero_iff "").2 rfl]
  · have h1 : ¬ s.Email.utf8ByteSize = 0 := fun h => h0 ((utf8ByteSize_eq_zero_iff _).1 h)
    by_cases h2 : strings.ToLower lowerRune s.Email = "none"
    · simp [h0, h1, h2]
    · by_cases h3 : strings.ToLower lowerRune s.Email = "unknown" <;> simp [h0, h1, h2, h3]

/-- C3: for every supplier the string returned by `Supplier.Get` is the
reference rendering (custom function's result if set; empty for an empty
name; otherwise `T: Name`, with `T` defaulting to "Organization", followed by
` (Email)` exactly when the e-mail is non-empty and its lower-casing is neither
"none" nor "unknown"); in particular `Organization/Acme/none` renders
"Organization: Acme" and `Person/Jane/jane@x.com` renders
"Person: Jane (jane@x.com)". -/
theorem Supplier_Get_eq_referenceRendering (lowerRune : Char → Char) :
    (∀ s : Supplier, (s.Get lowerRune).1 = s.referenceRendering lowerRune) ∧
    (Supplier.Get lowerRune ⟨Organization, "Acme", "none", none⟩).1 = "Organization: Acme" ∧
    (Supplier.Get lowerRune ⟨Person, "Jane", "jane@x.com", none⟩).1 =
      "Person: Jane (jane@x.com)" := by
  have main : ∀ s : Supplier, (s.Get lowerRune).1 = s.referenceRendering lowerRune := by
    intro s
    rcases s with ⟨ty, name, email, f⟩
    cases f with
    | some f => rfl
    | none =>
      simp only [Supplier.Get, Supplier.referenceRendering]
      by_cases hn : name = ""
      · simp [hn]
      · simp only [hn, if_false]
        by_cases ht : ty = ""
        · simp only [ht, if_true, Supplier.emailIsEmpty_eq, Organization]
          split_ifs <;> simp_all [String.append_assoc]
        · simp only [ht, if_false, Supplier.emailIsEmpty_eq]
          split_ifs <;> simp_all [String.append_assoc]
  have l1 : strings.ToLower lowerRune "none" = "none" :=
    (strings.ToLower_ascii lowerRune "none" (by decide)).trans (by decide)
  have l2 : strings.ToLower lowerRune "jane@x.com" = "jane@x.com" :=
    (strings.ToLower_ascii lowerRune "jane@x.com" (by decide)).trans (by decide)
  refine ⟨main, ?_, ?_⟩
  · rw [main]
    simp only [Supplier.referenceRendering, l1]
    decide
  · rw [main]
    simp only [Supplier.referenceRendering, l2]
    decide

/-- C4 (counterexample): on a supplier with no custom function, name "Acme"
and an unset type, `Supplier.Get` leaves the supplier changed: its type is
"Organization" after the call. -/
theorem Supplier_Get_changes_unset_Type :
    (Supplier.Get Char.toLower ⟨"", "Acme", "", none⟩).1 = "Organization: Acme" ∧
    (Supplier.Get Char.toLower ⟨"", "Acme", "", none⟩).2.Type_ = "Organization" ∧
    (Supplier.Get Char.toLower ⟨"", "Acme", "", none⟩).2 ≠ ⟨"", "Acme", "", none⟩ := by
  have h : (Supplier.Get Char.toLower ⟨"", "Acme", "", none⟩).2.Type_ = "Organization" := by
    decide
  refine ⟨by decide, h, ?_⟩
  intro heq
  rw [heq] at h
  exact absurd h (by decide)

/-- C4 (amended): with no custom function set, `Supplier.Get` leaves `Name`,
`Email` and the function field unchanged; `Type` becomes "Organization" when
the name is non-empty and the type is unset, and is unchanged otherwise; so
the supplier after the call equals the supplier before it whenever the name
is empty or the type is set. -/
theorem Supplier_Get_frame (lowerRune : Char → Char) (s : Supplier)
    (hf : s.FuncGetSupplier = none) :
    (s.Get lowerRune).2.Name = s.Name ∧
    (s.Get lowerRune).2.Email = s.Email ∧
    (s.Get lowerRune).2.FuncGetSupplier = s.FuncGetSupplier ∧
    (s.Get lowerRune).2.Type_ =
      (if s.Name ≠ "" ∧ s.Type_ = "" then Organization else s.Type_) ∧
    (s.Name = "" ∨ s.Type_ ≠ "" → (s.Get lowerRune).2 = s) := by
  rcases s with ⟨ty, name, email, f⟩
  simp only at hf
  subst hf
  simp only [Supplier.Get]
  by_cases hn : name = ""
  · simp [hn]
  · by_cases ht : ty = ""
    · simp [hn, ht]
    · simp [hn, ht]

/-- C4 (amended) at `Person/Jane/jane@x.com`: the supplier is unchanged by the
call. -/
theorem Supplier_Get_frame_witness :
    (Supplier.Get Char.toLower ⟨Person, "Jane", "jane@x.com", none⟩).2 =
      ⟨Person, "Jane", "jane@x.com", none⟩ :=
  (Supplier_Get_frame Char.toLower ⟨Person, "Jane", "jane@x.com", none⟩ rfl).2.2.2.2
    (Or.inr (by decide))

/-! ## Theorems: checksum -/

/-- The library model agrees with the published digests of "abc" (FIPS 180-4
example messages) for all three hash functions. -/
theorem digest_abc :
    hex.EncodeToString (sha1.Sum [97, 98, 99]) =
      "a9993e364706816aba3e25717850c26c9cd0d89d" ∧
    hex.EncodeToString (sha256.Sum [97, 98, 99]) =
      "ba7816bf8f01cfea414140de5dae2223b00361a396177a9cb410ff61f20015ad" ∧
    hex.EncodeToString (sha512.Sum [97, 98, 99]) =
      "ddaf35a193617abacc417349ae20413112e6fa4e89a97ea20a9eeee64b55d39a2192992a274fc1a836ba3c23a3feebbd454d4423643ce80e2a9ac94fa54ca49f" := by
  set_option maxRecDepth 100000 in
  exact ⟨by decide, by decide, by decide⟩

/-- The library model agrees with the reference digests of messages whose
padding spills into a second block (56 bytes for SHA-1 and SHA-256, 112 bytes
for SHA-512, all equal to `a`). -/
theorem digest_two_blocks :
    hex.EncodeToString (sha1.Sum (List.replicate 56 97)) =
      "c2db330f6083854c99d4b5bfb6e8f29f201be699" ∧
    hex.EncodeToString (sha256.Sum (List.replicate 56 97)) =
      "b35439a4ac6f0948b6d6f9e3c6af0f5f590ce20f1bde7090ef7970686ec6738a" ∧
    hex.EncodeToString (sha512.Sum (List.replicate 112 97)) =
      "c01d080efd492776a1c43bd23dd99d0a2e626d481e16782e75d54c2503b5dc32bd05f0f1ba33e568b88fd2d970929b719ecbb152f58f130a407c8830604b70ca" := by
  set_option maxRecDepth 100000 in
  exact ⟨by decide, by decide, by decide⟩

/-- The length of a computed checksum string, by algorithm. -/
theorem Checksum.length_Compute (c : Checksum) (content : List UInt8) :
    (c.Compute content).length =
      if c.Algorithm = HashAlgoSHA256 then 64
      else if c.Algorithm = HashAlgoSHA512 then 128 else 40 := by
  unfold Checksum.Compute
  rw [hex.length_EncodeToString]
  split_ifs <;> simp [length_sha256_Sum, length_sha512_Sum, length_sha1_Sum]

/-- C5: `Checksum.String` is memoised and idempotent: when `Value` is empty the
call returns `Compute(Content)`, stores it in `Value` and leaves `Algorithm`
and `Content` unchanged; a second call returns the same string as the first
and leaves the checksum unchanged (the value stored by the first call is
non-empty, so the second call takes the cached branch); and a non-empty
`Value` is the cache: the call returns it as it is, without computing, and
leaves the checksum unchanged. -/
theorem Checksum_String_memoised (c : Checksum) :
    (c.Value = "" →
      c.String.1 = c.Compute c.Content ∧
      c.String.2.Value = c.Compute c.Content ∧
      c.String.2.Algorithm = c.Algorithm ∧
      c.String.2.Content = c.Content) ∧
    c.String.2.String.1 = c.String.1 ∧
    c.String.2.String.2 = c.String.2 ∧
    c.String.2.Value ≠ "" ∧
    (c.Value ≠ "" → c.String = (c.Value, c)) := by
  have hne : c.Compute c.Content ≠ "" := by
    intro h
    have hl := Checksum.length_Compute c c.Content
    rw [h] at hl
    split_ifs at hl <;> simp at hl
  rcases c with ⟨alg, content, value⟩
  by_cases hv : value = ""
  · subst hv
    simp only [ne_eq] at hne
    simp [Checksum.String, hne]
  · simp [Checksum.String, hv]

/-- C5 on the SHA-256 checksum of "abc": with an empty cache the first call
returns and stores the digest; with the cache preset to "NOT HEX" the call
returns "NOT HEX" and leaves the checksum as it was. -/
theorem Checksum_String_memoised_witness :
    (Checksum.String ⟨HashAlgoSHA256, [97, 98, 99], ""⟩).1 =
      Checksum.Compute ⟨HashAlgoSHA256, [97, 98, 99], ""⟩ [97, 98, 99] ∧
    (Checksum.String ⟨HashAlgoSHA256, [97, 98, 99], ""⟩).2.Value =
      Checksum.Compute ⟨HashAlgoSHA256, [97, 98, 99], ""⟩ [97, 98, 99] ∧
    Checksum.String ⟨HashAlgoSHA256, [97, 98, 99], "NOT HEX"⟩ =
      ("NOT HEX", ⟨HashAlgoSHA256, [97, 98, 99], "NOT HEX"⟩) :=
  ⟨((Checksum_String_memoised ⟨HashAlgoSHA256, [97, 98, 99], ""⟩).1 rfl).1,
   ((Checksum_String_memoised ⟨HashAlgoSHA256, [97, 98, 99], ""⟩).1 rfl).2.1,
   (Checksum_String_memoised ⟨HashAlgoSHA256, [97, 98, 99], "NOT HEX"⟩).2.2.2.2 (by decide)⟩

/-- C6: `Checksum.Compute` is total and returns the lower-case hexadecimal
encoding of the SHA-256 digest of the content for `SHA256`, of the SHA-512
digest for `SHA512`, and of the SHA-1 digest for every other algorithm value;
the result consists of the characters `0-9`, `a-f` only and has length 64,
128 or 40 respectively. -/
theorem Checksum_Compute_spec (c : Checksum) (content : List UInt8) :
    c.Compute content =
      hex.EncodeToString
        (if c.Algorithm = HashAlgoSHA256 then sha256.Sum content
         else if c.Algorithm = HashAlgoSHA512 then sha512.Sum content
         else sha1.Sum content) ∧
    (∀ ch ∈ (c.Compute content).toList, ch ∈ "0123456789abcdef".toList) ∧
    (c.Compute content).length =
      (if c.Algorithm = HashAlgoSHA256 then 64
       else if c.Algorithm = HashAlgoSHA512 then 128 else 40) := by
  refine ⟨?_, ?_, Checksum.length_Compute c content⟩
  · unfold Checksum.Compute
    split_ifs <;> rfl
  · intro ch hch
    exact hex.mem_EncodeToString _ ch hch

/-! ## Theorems: pip adapter -/

/-- C7: `pip.IsValid` returns true exactly when one of the pipenv, poetry,
pyenv sub-adapters reports the path valid; when it returns true the adopted
plugin is the first valid sub-adapter in that order; when it returns false
the receiver, and so the previously adopted plugin, is unchanged. -/
theorem pip_IsValid_first_match {Plugin : Type} (pipenvA poetryA pyenvA : SubAdapter Plugin)
    (m : pip Plugin) (path : String) :
    ((pip.IsValid pipenvA poetryA pyenvA m path).1 = true ↔
      (pipenvA.IsValid path = true ∨ poetryA.IsValid path = true ∨
        pyenvA.IsValid path = true)) ∧
    ((pip.IsValid pipenvA poetryA pyenvA m path).1 = true →
      (pip.IsValid pipenvA poetryA pyenvA m path).2.plugin =
        ([pipenvA, poetryA, pyenvA].find? (fun a => a.IsValid path)).map SubAdapter.New) ∧
    ((pip.IsValid pipenvA poetryA pyenvA m path).1 = false →
      (pip.IsValid pipenvA poetryA pyenvA m path).2 = m) := by
  unfold pip.IsValid
  by_cases h1 : pipenvA.IsValid path = true
  · simp [h1, List.find?]
  · by_cases h2 : poetryA.IsValid path = true
    · simp [h1, h2, List.find?]
    · by_cases h3 : pyenvA.IsValid path = true
      · simp [h1, h2, h3, List.find?]
      · simp [h1, h2, h3]

/-- C7 where pipenv is absent and both poetry and pyenv are valid: `pip`
adopts the fresh poetry adapter, not pyenv. -/
theorem pip_IsValid_first_match_witness :
    (pip.IsValid SubAdapter.pipenvAbsent SubAdapter.poetryLocked SubAdapter.pyenvPresent
      pip.New "/p").2.plugin = some (PipPlugin.poetry poetry.New) :=
  ((pip_IsValid_first_match SubAdapter.pipenvAbsent SubAdapter.poetryLocked
    SubAdapter.pyenvPresent pip.New "/p").2.1 (by decide)).trans rfl

/-! ## Theorems: poetry adapter -/

section PoetryTheorems

variable {Data MetaInfo License : Type}

/-- The loop of `fetchRootModule` returns the first module marked root, or the
zero package. -/
theorem poetry.fetchRootModule.loop_eq (l : List (Package License)) :
    poetry.fetchRootModule.loop l = (l.find? (fun p => p.Root)).getD Package.zero := by
  induction l with
  | nil => rfl
  | cons p ps ih =>
    by_cases hp : p.Root = true
    · simp [poetry.fetchRootModule.loop, List.find?, hp]
    · simp [poetry.fetchRootModule.loop, List.find?, hp, ih]

/-- On a fresh poetry adapter `IsValid` asks whether `poetry.lock` exists under
the path. -/
theorem poetry.IsValid_New (t : Tool) (path : String) :
    poetry.IsValid t (poetry.New : poetry Data MetaInfo License) path =
      t.Exists (t.Join path manifestLockFile) := by
  simp [poetry.IsValid, poetry.New, poetry.IsValid.loop]

/-- C8: `poetry.GetRootModule` never returns an error; with no cached root it
returns the first module whose `Root` flag is true, or the zero package when
there is none, and caches it; with a cached root it returns that root; and
every call after the first returns what the first returned, whatever the
module collection then contains. -/
theorem poetry_GetRootModule_cached (m : poetry Data MetaInfo License) (path : String) :
    (m.GetRootModule path).1.2 = none ∧
    (m.rootModule = none →
      (m.GetRootModule path).1.1 =
        (m.allModules.find? (fun p => p.Root)).getD Package.zero ∧
      (m.GetRootModule path).2 =
        { m with rootModule := some ((m.allModules.find? (fun p => p.Root)).getD Package.zero) }) ∧
    (∀ root, m.rootModule = some root →
      (m.GetRootModule path).1.1 = root ∧ (m.GetRootModule path).2 = m) ∧
    (∀ (modules : List (Package License)) (path2 : String),
      (poetry.GetRootModule { (m.GetRootModule path).2 with allModules := modules } path2).1 =
        (m.GetRootModule path).1) := by
  rcases m with ⟨md, root, cmd, bp, ver, pkgs, mi, mods⟩
  cases root with
  | none =>
    simp [poetry.GetRootModule, poetry.fetchRootModule, poetry.fetchRootModule.loop_eq]
  | some r =>
    simp [poetry.GetRootModule]

/-- C8 on an adapter with modules `a`, `b` (root), `c` (root) and no cached
root: the call returns `b`. -/
theorem poetry_GetRootModule_cached_witness :
    (poetry.threeModules.GetRootModule "").1.1 = Package.named "b" true :=
  ((poetry_GetRootModule_cached poetry.threeModules "").2.1 rfl).1.trans rfl

/-- C9 (counterexample): when the command cannot be built `GetVersion` returns
the error of the build (or `errNoPipCommand`), not `errVersionNotFound`; and
when the tool prints nothing `GetVersion` returns the empty output with no
error. -/
theorem poetry_GetVersion_other_failures :
    (poetry.GetVersion Tool.unbuildable Worker.single poetry.New).map (fun r => r.1) =
      some ("", some (Error.external "exec: not found")) ∧
    (poetry.GetVersion { Tool.printing [] "Python 3.9.1" with VersionCmd := "python -V" }
      Worker.single poetry.New).map (fun r => r.1) = some ("", some Error.errNoPipCommand) ∧
    (poetry.GetVersion (Tool.printing [] "") Worker.single poetry.New).map (fun r => r.1) =
      some ("", none) := by
  refine ⟨by decide, by decide, by decide⟩

/-- C9 (amended): when the parsed version command is not empty, `GetVersion`
returns `errNoPipCommand` if the command does not start with `poetry`, the
error of `Build` if building fails (both with the empty string),
`errVersionNotFound` with the string "Python" if running the command returns
an error, and otherwise the captured output, empty or not, with no error. -/
theorem poetry_GetVersion_spec (t : Tool) (w : Worker Data MetaInfo License)
    (m : poetry Data MetaInfo License) (name : String) (args : List String)
    (hp : t.Parse t.VersionCmd = name :: args) :
    (poetry.GetVersion t w m).map (fun r => r.1) =
      if name ≠ cmdName then some ("", some Error.errNoPipCommand)
      else
        match t.Build ⟨name, args, m.basepath⟩ with
        | some e => some ("", some (Error.external e))
        | none =>
          match (t.Output ⟨name, args, m.basepath⟩).2 with
          | some _ => some ("Python", some Error.errVersionNotFound)
          | none => some ((t.Output ⟨name, args, m.basepath⟩).1, none) := by
  unfold poetry.GetVersion poetry.buildCmd
  rw [hp]
  by_cases hn : name = cmdName
  · subst hn
    rcases hb : t.Build ⟨cmdName, args, m.basepath⟩ with _ | e
    · rcases ho : t.Output ⟨cmdName, args, m.basepath⟩ with ⟨out, _ | err⟩
      · simp only [ne_eq, not_true_eq_false, if_false, hb, Option.map]
        simp only [poetry.commandOutput, Option.map, ho]
      · simp only [ne_eq, not_true_eq_false, if_false, hb, Option.map]
        simp only [poetry.commandOutput, Option.map, ho]
    · simp only [ne_eq, not_true_eq_false, if_false, hb, Option.map]
  · simp [hn]

/-- C9 (amended) on a tool whose command runs with an error: `GetVersion`
fails with `errVersionNotFound`. -/
theorem poetry_GetVersion_spec_witness :
    (poetry.GetVersion Tool.failing Worker.single poetry.New).map (fun r => r.1) =
      some ("Python", some Error.errVersionNotFound) :=
  (poetry_GetVersion_spec Tool.failing Worker.single poetry.New "poetry"
    ["run", "python", "-V"] (by decide)).trans (by decide)

/-- C10 (counterexample): with a tool that lists one package `app`,
`ListUsedModules` on a fresh adapter populates the module collection with
`app` marked root, whereas `GetRootModule` on the same fresh adapter leaves
the collection empty and returns the zero package; a later load does not
change what `GetRootModule` returns. -/
theorem poetry_GetRootModule_does_not_load :
    (poetry.ListUsedModules (Tool.printing [] "app") Worker.single poetry.New "").map
      (fun r => r.2.allModules.map (fun p => (p.Name, p.Root))) = some [("app", true)] ∧
    ((poetry.New : poetry String (List String) Unit).GetRootModule "").2.allModules.length = 0 ∧
    ((poetry.New : poetry String (List String) Unit).GetRootModule "").2.pkgs.length = 0 ∧
    ((poetry.New : poetry String (List String) Unit).GetRootModule "").2.command = none ∧
    ((poetry.New : poetry String (List String) Unit).GetRootModule "").1.1.Name = "" ∧
    ((poetry.New : poetry String (List String) Unit).GetRootModule "").1.1.Root = false ∧
    (poetry.ListUsedModules (Tool.printing [] "app") Worker.single
      (poetry.New.GetRootModule "").2 "").map
      (fun r => ((r.2.GetRootModule "").1.1.Name, (r.2.GetRootModule "").1.1.Root)) =
        some ("", false) := by
  refine ⟨by decide, by decide, by decide, by decide, by decide, by decide, by decide⟩

/-- C10 (amended): `poetry.GetRootModule` never loads: it leaves the module
collection, the loaded packages, the command, the metadata map, the base path
and the version unchanged, and on an adapter with no cached root and an empty
collection it returns and caches the zero package. -/
theorem poetry_GetRootModule_frame (m : poetry Data MetaInfo License) (path : String) :
    (m.GetRootModule path).2.allModules = m.allModules ∧
    (m.GetRootModule path).2.pkgs = m.pkgs ∧
    (m.GetRootModule path).2.command = m.command ∧
    (m.GetRootModule path).2.metainfo = m.metainfo ∧
    (m.GetRootModule path).2.basepath = m.basepath ∧
    (m.GetRootModule path).2.version = m.version ∧
    (m.rootModule = none → m.allModules = [] →
      (m.GetRootModule path).1.1 = Package.zero ∧
      (m.GetRootModule path).2.rootModule = some Package.zero) := by
  rcases m with ⟨md, root, cmd, bp, ver, pkgs, mi, mods⟩
  cases root with
  | none =>
    refine ⟨rfl, rfl, rfl, rfl, rfl, rfl, ?_⟩
    intro _ hm
    simp only at hm
    subst hm
    exact ⟨rfl, rfl⟩
  | some r =>
    refine ⟨rfl, rfl, rfl, rfl, rfl, rfl, ?_⟩
    intro h
    simp at h

/-- C10 (amended) on a fresh adapter: the call returns and caches the zero
package. -/
theorem poetry_GetRootModule_frame_witness :
    ((poetry.New : poetry String (List String) Unit).GetRootModule "").1.1 = Package.zero ∧
    ((poetry.New : poetry String (List String) Unit).GetRootModule "").2.rootModule =
      some Package.zero :=
  (poetry_GetRootModule_frame (poetry.New : poetry String (List String) Unit) "").2.2.2.2.2.2
    rfl rfl

end PoetryTheorems

end Parsers
